import Mathlib

/-!
# Verification of `models_v2/model_training_script.py` — `train_model`

Shallow embedding of the single training-loop procedure of the repository.
The loop is embedded as a pure state-transformer over an explicit
`TrainState`, with fallible operations (dict lookup, tuple unpacking)
returning `Except PyError`.  Framework capabilities that cannot be expressed
over the rationals (the model forward pass, the composite effect of
`loss.backward(); optimizer.step()`, and the default `nn.CrossEntropyLoss`)
are abstract fields of the configuration record, exactly as the script
treats them: opaque callables supplied by the caller / the framework.

Numeric values (`loss.item()`, metric scores) are rationals; tensors carry an
explicit `device` tag so that device-transfer effects are observable.
The state is instrumented with observation fields (`files`, `opt_steps`,
`batches_seen`, `grad_modes`, `forward_args`, `epochs_done`, `sched_steps`)
that record the side effects of the script (`torch.save`, `optimizer.step`,
batch consumption, `torch.set_grad_enabled`, the arguments handed to the
model, loop iterations, `scheduler.step`): they are write-only logs and do
not influence control flow.
-/

deriving instance DecidableEq for Except

namespace TrainScript

/-- A 2-D float tensor: a batch of per-sample rows (images flattened, or
per-sample class-score vectors), tagged with the device it lives on.
`len(t)` in the script is the number of rows. -/
structure Tensor where
  rows : List (List ℚ)
  device : String
deriving Repr, DecidableEq

/-- A 1-D integer tensor of class labels, tagged with its device. -/
structure LabelTensor where
  vals : List ℤ
  device : String
deriving Repr, DecidableEq

/-- `labels.to(device)`: move a label tensor to a device (values unchanged). -/
def LabelTensor.to (l : LabelTensor) (d : String) : LabelTensor :=
  { l with device := d }

/-- `labels.cpu()`: move to the cpu device (values unchanged); `.numpy()`
then reads off `vals`. -/
def LabelTensor.cpu (l : LabelTensor) : LabelTensor :=
  { l with device := "cpu" }

/-- One element of a batch tuple as yielded by a dataloader. -/
inductive PyVal where
  | tensor (t : Tensor)
  | labels (l : LabelTensor)
deriving Repr, DecidableEq

/-- A raw batch: the tuple yielded by the dataloader, of unknown arity. -/
abbrev RawBatch := List PyVal

/-- The Python exceptions the script can raise (uncaught). -/
inductive PyError where
  | keyError (key : String)
  | valueError (msg : String)
  | typeError (msg : String)
  | zeroDivisionError
deriving Repr, DecidableEq

/-- `image, labels = data` / `image, labels, features = data` (lines 51–54):
unpack the batch tuple according to `use_features`.  A tuple of the wrong
arity raises `ValueError`; a tuple of the right arity whose components are
not of the kinds the rest of the loop body needs fails there instead, which
we surface as a `TypeError`. -/
def unpackBatch (use_features : Bool) (data : RawBatch) :
    Except PyError (Tensor × LabelTensor × Option Tensor) :=
  if use_features then
    match data with
    | [PyVal.tensor i, PyVal.labels l, PyVal.tensor f] => .ok (i, l, some f)
    | [_, _, _] => .error (.typeError "batch components have unexpected kinds")
    | _ => .error (.valueError "cannot unpack batch into (image, labels, features)")
  else
    match data with
    | [PyVal.tensor i, PyVal.labels l] => .ok (i, l, none)
    | [_, _] => .error (.typeError "batch components have unexpected kinds")
    | _ => .error (.valueError "cannot unpack batch into (image, labels)")

/-! ## sklearn metrics (`accuracy_score`, `precision_score`, `recall_score`,
`f1_score` with `average='macro'`, `zero_division=0`) -/

/-- Index of the first maximal entry of a row, scanning from position `i`
with current best index `bi` and best value `bv`. -/
def argmaxFrom : Nat → Nat → ℚ → List ℚ → Nat
  | _, bi, _, [] => bi
  | i, bi, bv, x :: xs =>
      if bv < x then argmaxFrom (i + 1) i x xs else argmaxFrom (i + 1) bi bv xs

/-- `torch.argmax(row)`: index of the first maximal entry ( `0` on an empty
row, a case the script never exercises since outputs have one score per
class). -/
def argmaxIdx : List ℚ → Nat
  | [] => 0
  | x :: xs => argmaxFrom 1 0 x xs

/-- The label set sklearn uses when `labels=None`: every class present in
`y_true` or `y_pred` (each class once). -/
def classesOf (y_true y_pred : List ℤ) : List ℤ :=
  (y_true ++ y_pred).dedup

/-- True positives of class `c`: positions where truth and prediction both
equal `c`. -/
def truePos (y_true y_pred : List ℤ) (c : ℤ) : Nat :=
  (List.zip y_true y_pred).countP (fun ab => ab.1 = c ∧ ab.2 = c)

/-- Per-class precision with `zero_division=0`. -/
def precisionOf (y_true y_pred : List ℤ) (c : ℤ) : ℚ :=
  let predicted := y_pred.countP (fun a => a = c)
  if predicted = 0 then 0 else (truePos y_true y_pred c : ℚ) / predicted

/-- Per-class recall with `zero_division=0`. -/
def recallOf (y_true y_pred : List ℤ) (c : ℤ) : ℚ :=
  let actual := y_true.countP (fun a => a = c)
  if actual = 0 then 0 else (truePos y_true y_pred c : ℚ) / actual

/-- Per-class F1 with `zero_division=0`. -/
def f1Of (y_true y_pred : List ℤ) (c : ℤ) : ℚ :=
  let p := precisionOf y_true y_pred c
  let r := recallOf y_true y_pred c
  if p + r = 0 then 0 else 2 * p * r / (p + r)

/-- Macro average: unweighted mean of a per-class score over `classesOf`. -/
def macroAvg (score : List ℤ → List ℤ → ℤ → ℚ) (y_true y_pred : List ℤ) : ℚ :=
  if (classesOf y_true y_pred).length = 0 then 0
  else ((classesOf y_true y_pred).map (score y_true y_pred)).sum /
    (classesOf y_true y_pred).length

/-- `accuracy_score(y_true, y_pred)`: fraction of positions that agree. -/
def accuracy_score (y_true y_pred : List ℤ) : ℚ :=
  if y_true.length = 0 then 0
  else ((List.zip y_true y_pred).countP (fun ab => ab.1 = ab.2) : ℚ) / y_true.length

/-- `precision_score(..., zero_division=0, average='macro')`. -/
def precision_score (y_true y_pred : List ℤ) : ℚ :=
  macroAvg precisionOf y_true y_pred

/-- `recall_score(..., zero_division=0, average='macro')`. -/
def recall_score (y_true y_pred : List ℤ) : ℚ :=
  macroAvg recallOf y_true y_pred

/-- `f1_score(..., zero_division=0, average='macro')`. -/
def f1_score (y_true y_pred : List ℤ) : ℚ :=
  macroAvg f1Of y_true y_pred

/-! ## The training loop -/

/-- The `best_metrics` dictionary (lines 21–28). `val_loss` lives in
`WithTop ℚ` so that the initial `float('inf')` is representable. -/
structure BestMetrics where
  epoch : Nat
  val_loss : WithTop ℚ
  val_accuracy : ℚ
  val_precision : ℚ
  val_recall : ℚ
  val_f1 : ℚ
deriving DecidableEq

/-- Initial best metrics: `{'epoch': 0, 'val_loss': inf, 0, 0, 0, 0}`. -/
def initBest : BestMetrics :=
  { epoch := 0, val_loss := ⊤, val_accuracy := 0, val_precision := 0
    val_recall := 0, val_f1 := 0 }

/-- The call configuration of `train_model`.  `P` is the type of a model
parameter snapshot (`state_dict`), `O` the optimizer's internal state.
The abstract fields stand for the framework capabilities the script invokes:

* `forwardF p image features?` — `model(image)` / `model(image, features)`
  with current parameters `p`, returning per-sample class-score rows;
* `stepF p o image features? labels` — the combined effect on the model
  parameters and optimizer state of `loss.backward(); optimizer.step()`
  for this batch (gradients are freshly computed each batch because
  `optimizer.zero_grad()` runs before every forward pass, so the composite
  is a function of the current parameters, optimizer state and batch);
* `crossEntropyLoss` — the framework's `nn.CrossEntropyLoss()`, used when
  `criterion?` is `none` (lines 32–33); the effective criterion maps the
  forward outputs and the labels to `loss.item()`. -/
structure Cfg (P O : Type) where
  forwardF : P → Tensor → Option Tensor → List (List ℚ)
  stepF : P → O → Tensor → Option Tensor → LabelTensor → P × O
  crossEntropyLoss : List (List ℚ) → LabelTensor → ℚ
  criterion? : Option (List (List ℚ) → LabelTensor → ℚ) := none
  hasScheduler : Bool := false
  dataloaders : String → Option (List RawBatch)
  dataset_sizes : String → Option Nat
  num_epochs : Nat := 1
  patience : ℤ := 10
  output_filename : String := "best_model.pth"
  use_gpu : Bool := false
  device : String := "cpu"
  use_features : Bool := false

/-- The effective criterion (lines 32–33). -/
def Cfg.criterion (cfg : Cfg P O) : List (List ℚ) → LabelTensor → ℚ :=
  cfg.criterion?.getD cfg.crossEntropyLoss

/-- The mutable state of one `train_model` run.  The first block mirrors the
script's variables; the second block is a write-only observation log. -/
structure TrainState (P O : Type) where
  params : P                 -- the model's current parameters (mutated in place)
  training : Bool            -- model.train() / model.eval() mode flag
  opt : O                    -- optimizer internal state
  best_metrics : BestMetrics
  best_model_wts : P
  patience_left : ℤ
  -- observation log:
  files : List (String × P)  -- torch.save(state_dict, filename) calls, in order
  opt_steps : Nat            -- number of optimizer.step() calls
  batches_seen : Nat         -- number of batches fully processed
  grad_modes : List Bool     -- torch.set_grad_enabled argument of each forward
  forward_args : List (Tensor × Option Tensor × LabelTensor)
                             -- (image, features?) handed to the model and the
                             -- labels handed to the criterion, per batch
  epochs_done : Nat          -- completed iterations of the epoch loop
  sched_steps : Nat          -- number of scheduler.step() calls
deriving DecidableEq

variable {P O : Type}

/-- The per-batch accumulators of a phase: `running_loss`, `all_preds`,
`all_labels` (lines 46–48). -/
structure PhaseAcc where
  running_loss : ℚ
  all_preds : List ℤ
  all_labels : List ℤ
deriving Repr, DecidableEq

/-- The forward pass as executed inside `with torch.set_grad_enabled(g)`
(lines 61–62): in the framework, the grad mode only controls whether a
computation graph is recorded for backward; the computed values never depend
on it, so the result ignores `g`. -/
def forwardIn (cfg : Cfg P O) (g : Bool) (p : P) (image : Tensor)
    (features? : Option Tensor) : List (List ℚ) :=
  cfg.forwardF p image features?

/-- The body of the batch loop (lines 50–72) for one batch. -/
def batchStep (cfg : Cfg P O) (phase : String) (s : TrainState P O)
    (acc : PhaseAcc) (data : RawBatch) :
    Except PyError (TrainState P O × PhaseAcc) := do
  let (image, labels₀, features?) ← unpackBatch cfg.use_features data
  let labels := if cfg.use_gpu then labels₀.to cfg.device else labels₀
  -- optimizer.zero_grad() (line 58): folded into stepF, see `Cfg.stepF`.
  let grad_enabled := phase == "train"    -- torch.set_grad_enabled (line 61)
  let outputs := forwardIn cfg grad_enabled s.params image features?
  let preds := outputs.map (fun row => (argmaxIdx row : ℤ))
  let loss := cfg.criterion outputs labels
  let s :=
    if phase == "train" then
      -- loss.backward(); optimizer.step() (lines 66–68)
      let po := cfg.stepF s.params s.opt image features? labels
      { s with params := po.1, opt := po.2, opt_steps := s.opt_steps + 1 }
    else s
  let s := { s with
    batches_seen := s.batches_seen + 1
    grad_modes := s.grad_modes ++ [grad_enabled]
    forward_args := s.forward_args ++ [(image, features?, labels)] }
  .ok (s, { running_loss := acc.running_loss + loss * image.rows.length
            all_preds := acc.all_preds ++ preds
            all_labels := acc.all_labels ++ labels.cpu.vals })

/-- Run the batch loop over the phase's dataloader contents. -/
def runBatches (cfg : Cfg P O) (phase : String) (s : TrainState P O)
    (acc : PhaseAcc) : List RawBatch → Except PyError (TrainState P O × PhaseAcc)
  | [] => .ok (s, acc)
  | data :: rest => do
      let r ← batchStep cfg phase s acc data
      runBatches cfg phase r.1 r.2 rest

/-- The epoch-level statistics of one phase (lines 74–78). -/
structure PhaseStats where
  epoch_loss : ℚ
  epoch_accuracy : ℚ
  epoch_precision : ℚ
  epoch_recall : ℚ
  epoch_f1 : ℚ
deriving Repr, DecidableEq

/-- Lines 41–78: set the model mode, run all batches of the phase, and
compute the epoch statistics. -/
def phaseEval (cfg : Cfg P O) (phase : String) (s : TrainState P O) :
    Except PyError (TrainState P O × PhaseStats) :=
  -- model.train() / model.eval() (lines 41–44) sets the mode flag
  match cfg.dataloaders phase with
  | none => .error (.keyError phase)                -- dataloaders[phase]
  | some batches => do
    let r ← runBatches cfg phase { s with training := phase == "train" }
        { running_loss := 0, all_preds := [], all_labels := [] } batches
    match cfg.dataset_sizes phase with
    | none => .error (.keyError phase)              -- dataset_sizes[phase]
    | some n =>
      if n = 0 then .error .zeroDivisionError       -- running_loss / 0
      else
      .ok (r.1, { epoch_loss := r.2.running_loss / n
                  epoch_accuracy := accuracy_score r.2.all_labels r.2.all_preds
                  epoch_precision := precision_score r.2.all_labels r.2.all_preds
                  epoch_recall := recall_score r.2.all_labels r.2.all_preds
                  epoch_f1 := f1_score r.2.all_labels r.2.all_preds })

/-- Lines 82–97: the best-checkpoint / patience block that closes each phase.
`epoch` is the 0-based loop index. -/
def bestUpdate (cfg : Cfg P O) (phase : String) (epoch : Nat)
    (s : TrainState P O) (st : PhaseStats) : TrainState P O :=
  if phase == "val" then
    if (st.epoch_loss : WithTop ℚ) < s.best_metrics.val_loss ∨
        s.best_metrics.val_recall < st.epoch_recall then
      { s with
        best_metrics :=
          { epoch := epoch + 1, val_loss := (st.epoch_loss : WithTop ℚ)
            val_accuracy := st.epoch_accuracy, val_precision := st.epoch_precision
            val_recall := st.epoch_recall, val_f1 := st.epoch_f1 }
        best_model_wts := s.params
        files := s.files ++ [(cfg.output_filename, s.params)]
        patience_left := cfg.patience }
    else
      { s with patience_left := s.patience_left - 1 }
  else s

/-- One full phase: evaluation followed by the best/patience block. -/
def runPhase (cfg : Cfg P O) (phase : String) (epoch : Nat)
    (s : TrainState P O) : Except PyError (TrainState P O) := do
  let (s, st) ← phaseEval cfg phase s
  .ok (bestUpdate cfg phase epoch s st)

/-- The epoch loop (lines 38–106): `n` epochs remain, `epoch` is the current
0-based index.  After both phases, break early when `patience_left ≤ 0`,
otherwise advance the scheduler (if any) and continue. -/
def epochLoop (cfg : Cfg P O) : Nat → Nat → TrainState P O →
    Except PyError (TrainState P O)
  | 0, _, s => .ok s
  | n + 1, epoch, s => do
      let s ← runPhase cfg "train" epoch s
      let s ← runPhase cfg "val" epoch s
      let s := { s with epochs_done := s.epochs_done + 1 }
      if s.patience_left ≤ 0 then .ok s
      else
        let s := if cfg.hasScheduler
          then { s with sched_steps := s.sched_steps + 1 } else s
        epochLoop cfg n (epoch + 1) s

/-- The initial state of a run: `best_model_wts = deepcopy(model.state_dict())`
(line 30), `patience_left = patience` (line 36), empty observation log. -/
def initState (cfg : Cfg P O) (params₀ : P) (training₀ : Bool) (opt₀ : O) :
    TrainState P O :=
  { params := params₀, training := training₀, opt := opt₀
    best_metrics := initBest, best_model_wts := params₀
    patience_left := cfg.patience
    files := [], opt_steps := 0, batches_seen := 0, grad_modes := []
    forward_args := [], epochs_done := 0, sched_steps := 0 }

/-- `train_model` (lines 12–117): run the epoch loop from the initial state,
then `model.load_state_dict(best_model_wts)` and return the model.  The
returned state's `params` field is the parameter state of the returned
model. -/
def train_model (cfg : Cfg P O) (params₀ : P) (training₀ : Bool) (opt₀ : O) :
    Except PyError (TrainState P O) := do
  let s ← epochLoop cfg cfg.num_epochs 0 (initState cfg params₀ training₀ opt₀)
  .ok { s with params := s.best_model_wts }

/-! ## Helper lemmas about one batch -/

/-- Normal form of `batchStep` on a batch that unpacks. -/
theorem batchStep_ok_char (cfg : Cfg P O) (phase : String) (s : TrainState P O)
    (acc : PhaseAcc) (data : RawBatch) (i : Tensor) (l : LabelTensor)
    (f? : Option Tensor) (hu : unpackBatch cfg.use_features data = .ok (i, l, f?)) :
    batchStep cfg phase s acc data =
      (let labels := if cfg.use_gpu then l.to cfg.device else l
       let outputs := forwardIn cfg (phase == "train") s.params i f?
       let loss := cfg.criterion outputs labels
       let s₁ := if phase == "train" then
           { s with params := (cfg.stepF s.params s.opt i f? labels).1
                    opt := (cfg.stepF s.params s.opt i f? labels).2
                    opt_steps := s.opt_steps + 1 }
         else s
       .ok ({ s₁ with
               batches_seen := s₁.batches_seen + 1
               grad_modes := s₁.grad_modes ++ [phase == "train"]
               forward_args := s₁.forward_args ++ [(i, f?, labels)] },
            { running_loss := acc.running_loss + loss * i.rows.length
              all_preds := acc.all_preds ++
                outputs.map (fun row => (argmaxIdx row : ℤ))
              all_labels := acc.all_labels ++ labels.cpu.vals })) := by
  unfold batchStep
  rw [hu]
  exact rfl

/-- `batchStep` propagates an unpacking failure unchanged. -/
theorem batchStep_err (cfg : Cfg P O) (phase : String) (s : TrainState P O)
    (acc : PhaseAcc) (data : RawBatch) (e : PyError)
    (hu : unpackBatch cfg.use_features data = .error e) :
    batchStep cfg phase s acc data = .error e := by
  unfold batchStep
  rw [hu]
  exact rfl

/-- A successful `batchStep` never touches the best-checkpoint bookkeeping,
the patience counter, or the epoch/scheduler counters. -/
theorem batchStep_frame (cfg : Cfg P O) (phase : String) (s s' : TrainState P O)
    (acc acc' : PhaseAcc) (data : RawBatch)
    (h : batchStep cfg phase s acc data = .ok (s', acc')) :
    s'.best_metrics = s.best_metrics ∧ s'.best_model_wts = s.best_model_wts ∧
    s'.files = s.files ∧ s'.patience_left = s.patience_left ∧
    s'.epochs_done = s.epochs_done ∧ s'.sched_steps = s.sched_steps ∧
    s'.training = s.training := by
  cases hu : unpackBatch cfg.use_features data with
  | error e => rw [batchStep_err cfg phase s acc data e hu] at h; exact absurd h (by simp)
  | ok t =>
    obtain ⟨i, l, f?⟩ := t
    rw [batchStep_ok_char cfg phase s acc data i l f? hu] at h
    simp only at h
    obtain ⟨h₁, -⟩ := Prod.mk.injEq .. ▸ Except.ok.injEq .. ▸ h
    subst h₁
    by_cases ht : (phase == "train") = true <;> simp [ht]

/-- On a non-"train" phase a successful `batchStep` leaves the model
parameters, the optimizer state and the step counter untouched. -/
theorem batchStep_val_frame (cfg : Cfg P O) (phase : String)
    (s s' : TrainState P O) (acc acc' : PhaseAcc) (data : RawBatch)
    (hp : (phase == "train") = false)
    (h : batchStep cfg phase s acc data = .ok (s', acc')) :
    s'.params = s.params ∧ s'.opt = s.opt ∧ s'.opt_steps = s.opt_steps := by
  cases hu : unpackBatch cfg.use_features data with
  | error e => rw [batchStep_err cfg phase s acc data e hu] at h; exact absurd h (by simp)
  | ok t =>
    obtain ⟨i, l, f?⟩ := t
    rw [batchStep_ok_char cfg phase s acc data i l f? hu] at h
    simp only [hp] at h
    obtain ⟨h₁, -⟩ := Prod.mk.injEq .. ▸ Except.ok.injEq .. ▸ h
    subst h₁
    simp

/-- A successful `batchStep` appends exactly one entry, the current grad
mode, to the `grad_modes` log. -/
theorem batchStep_grad (cfg : Cfg P O) (phase : String)
    (s s' : TrainState P O) (acc acc' : PhaseAcc) (data : RawBatch)
    (h : batchStep cfg phase s acc data = .ok (s', acc')) :
    s'.grad_modes = s.grad_modes ++ [phase == "train"] := by
  cases hu : unpackBatch cfg.use_features data with
  | error e => rw [batchStep_err cfg phase s acc data e hu] at h; exact absurd h (by simp)
  | ok t =>
    obtain ⟨i, l, f?⟩ := t
    rw [batchStep_ok_char cfg phase s acc data i l f? hu] at h
    simp only at h
    obtain ⟨h₁, -⟩ := Prod.mk.injEq .. ▸ Except.ok.injEq .. ▸ h
    subst h₁
    by_cases ht : (phase == "train") = true <;> simp [ht]

/-! ## Helper lemmas about the batch loop -/

/-- The batch loop never touches the best-checkpoint bookkeeping, the
patience counter, or the epoch/scheduler counters. -/
theorem runBatches_frame (cfg : Cfg P O) (phase : String) :
    ∀ (bs : List RawBatch) (s s' : TrainState P O) (acc acc' : PhaseAcc),
    runBatches cfg phase s acc bs = .ok (s', acc') →
    s'.best_metrics = s.best_metrics ∧ s'.best_model_wts = s.best_model_wts ∧
    s'.files = s.files ∧ s'.patience_left = s.patience_left ∧
    s'.epochs_done = s.epochs_done ∧ s'.sched_steps = s.sched_steps ∧
    s'.training = s.training
  | [], s, s', acc, acc', h => by
      obtain ⟨h₁, -⟩ := Prod.mk.injEq .. ▸ Except.ok.injEq .. ▸ h
      subst h₁; exact ⟨rfl, rfl, rfl, rfl, rfl, rfl, rfl⟩
  | data :: rest, s, s', acc, acc', h => by
      rw [runBatches] at h
      cases hb : batchStep cfg phase s acc data with
      | error e => rw [hb] at h; exact Except.noConfusion h
      | ok r =>
        rw [hb] at h
        obtain ⟨m₁, m₂, m₃, m₄, m₅, m₆, m₇⟩ :=
          batchStep_frame cfg phase s r.1 acc r.2 data hb
        obtain ⟨n₁, n₂, n₃, n₄, n₅, n₆, n₇⟩ :=
          runBatches_frame cfg phase rest r.1 s' r.2 acc' h
        exact ⟨n₁.trans m₁, n₂.trans m₂, n₃.trans m₃, n₄.trans m₄,
               n₅.trans m₅, n₆.trans m₆, n₇.trans m₇⟩

/-- On a non-"train" phase the batch loop leaves the model parameters, the
optimizer state and the step counter untouched. -/
theorem runBatches_val_frame (cfg : Cfg P O) (phase : String)
    (hp : (phase == "train") = false) :
    ∀ (bs : List RawBatch) (s s' : TrainState P O) (acc acc' : PhaseAcc),
    runBatches cfg phase s acc bs = .ok (s', acc') →
    s'.params = s.params ∧ s'.opt = s.opt ∧ s'.opt_steps = s.opt_steps
  | [], s, s', acc, acc', h => by
      obtain ⟨h₁, -⟩ := Prod.mk.injEq .. ▸ Except.ok.injEq .. ▸ h
      subst h₁; exact ⟨rfl, rfl, rfl⟩
  | data :: rest, s, s', acc, acc', h => by
      rw [runBatches] at h
      cases hb : batchStep cfg phase s acc data with
      | error e => rw [hb] at h; exact Except.noConfusion h
      | ok r =>
        rw [hb] at h
        obtain ⟨m₁, m₂, m₃⟩ :=
          batchStep_val_frame cfg phase s r.1 acc r.2 data hp hb
        obtain ⟨n₁, n₂, n₃⟩ :=
          runBatches_val_frame cfg phase hp rest r.1 s' r.2 acc' h
        exact ⟨n₁.trans m₁, n₂.trans m₂, n₃.trans m₃⟩

/-- The batch loop appends one grad-mode entry per processed batch, each
equal to `phase == "train"`. -/
theorem runBatches_grad (cfg : Cfg P O) (phase : String) :
    ∀ (bs : List RawBatch) (s s' : TrainState P O) (acc acc' : PhaseAcc),
    runBatches cfg phase s acc bs = .ok (s', acc') →
    ∃ k, s'.grad_modes = s.grad_modes ++ List.replicate k (phase == "train")
  | [], s, s', acc, acc', h => by
      obtain ⟨h₁, -⟩ := Prod.mk.injEq .. ▸ Except.ok.injEq .. ▸ h
      subst h₁; exact ⟨0, by simp⟩
  | data :: rest, s, s', acc, acc', h => by
      rw [runBatches] at h
      cases hb : batchStep cfg phase s acc data with
      | error e => rw [hb] at h; exact Except.noConfusion h
      | ok r =>
        rw [hb] at h
        have hg := batchStep_grad cfg phase s r.1 acc r.2 data hb
        obtain ⟨k, hk⟩ := runBatches_grad cfg phase rest r.1 s' r.2 acc' h
        refine ⟨k + 1, ?_⟩
        rw [hk, hg, List.append_assoc]
        congr 1

/-! ## Helper lemmas about one phase -/

/-- Decomposition of a successful `phaseEval`. -/
theorem phaseEval_ok_elim (cfg : Cfg P O) (phase : String)
    (s s₁ : TrainState P O) (st : PhaseStats)
    (h : phaseEval cfg phase s = .ok (s₁, st)) :
    ∃ (batches : List RawBatch) (n : Nat) (acc : PhaseAcc),
      cfg.dataloaders phase = some batches ∧ cfg.dataset_sizes phase = some n ∧
      n ≠ 0 ∧
      runBatches cfg phase { s with training := phase == "train" }
        { running_loss := 0, all_preds := [], all_labels := [] } batches =
        .ok (s₁, acc) ∧
      st = { epoch_loss := acc.running_loss / n
             epoch_accuracy := accuracy_score acc.all_labels acc.all_preds
             epoch_precision := precision_score acc.all_labels acc.all_preds
             epoch_recall := recall_score acc.all_labels acc.all_preds
             epoch_f1 := f1_score acc.all_labels acc.all_preds } := by
  unfold phaseEval at h
  split at h
  · exact Except.noConfusion h
  next batches hdl =>
    cases hrb : runBatches cfg phase { s with training := phase == "train" }
        { running_loss := 0, all_preds := [], all_labels := [] } batches with
    | error e => rw [hrb] at h; exact Except.noConfusion h
    | ok r =>
      obtain ⟨s₂, acc⟩ := r
      rw [hrb] at h
      replace h : (match cfg.dataset_sizes phase with
          | none => Except.error (PyError.keyError phase)
          | some n =>
            if n = 0 then Except.error PyError.zeroDivisionError
            else Except.ok (s₂,
              { epoch_loss := acc.running_loss / n
                epoch_accuracy := accuracy_score acc.all_labels acc.all_preds
                epoch_precision := precision_score acc.all_labels acc.all_preds
                epoch_recall := recall_score acc.all_labels acc.all_preds
                epoch_f1 := f1_score acc.all_labels acc.all_preds })) =
          Except.ok (s₁, st) := h
      split at h
      · exact Except.noConfusion h
      next n hds =>
        split at h
        · exact Except.noConfusion h
        next hn =>
          obtain ⟨h₁, h₂⟩ := Prod.mk.injEq .. ▸ (Except.ok.inj h)
          refine ⟨batches, n, acc, hdl, hds, hn, ?_, h₂.symm⟩
          rw [hrb, h₁]

/-- Phase evaluation never touches the best-checkpoint bookkeeping, the
patience counter, or the epoch/scheduler counters. -/
theorem phaseEval_frame (cfg : Cfg P O) (phase : String)
    (s s₁ : TrainState P O) (st : PhaseStats)
    (h : phaseEval cfg phase s = .ok (s₁, st)) :
    s₁.best_metrics = s.best_metrics ∧ s₁.best_model_wts = s.best_model_wts ∧
    s₁.files = s.files ∧ s₁.patience_left = s.patience_left ∧
    s₁.epochs_done = s.epochs_done ∧ s₁.sched_steps = s.sched_steps := by
  obtain ⟨batches, n, acc, -, -, -, hrb, -⟩ :=
    phaseEval_ok_elim cfg phase s s₁ st h
  obtain ⟨m₁, m₂, m₃, m₄, m₅, m₆, -⟩ :=
    runBatches_frame cfg phase batches _ s₁ _ acc hrb
  exact ⟨m₁, m₂, m₃, m₄, m₅, m₆⟩

/-- On a non-"train" phase, evaluation leaves the model parameters, the
optimizer state and the step counter untouched. -/
theorem phaseEval_val_frame (cfg : Cfg P O) (phase : String)
    (hp : (phase == "train") = false) (s s₁ : TrainState P O) (st : PhaseStats)
    (h : phaseEval cfg phase s = .ok (s₁, st)) :
    s₁.params = s.params ∧ s₁.opt = s.opt ∧ s₁.opt_steps = s.opt_steps := by
  obtain ⟨batches, n, acc, -, -, -, hrb, -⟩ :=
    phaseEval_ok_elim cfg phase s s₁ st h
  obtain ⟨m₁, m₂, m₃⟩ := runBatches_val_frame cfg phase hp batches _ s₁ _ acc hrb
  exact ⟨m₁, m₂, m₃⟩

/-- A successful `runPhase` is `bestUpdate` applied to a successful
`phaseEval`, and conversely. -/
theorem runPhase_ok_iff (cfg : Cfg P O) (phase : String) (epoch : Nat)
    (s s' : TrainState P O) :
    runPhase cfg phase epoch s = .ok s' ↔
    ∃ s₁ st, phaseEval cfg phase s = .ok (s₁, st) ∧
      s' = bestUpdate cfg phase epoch s₁ st := by
  constructor
  · intro h
    unfold runPhase at h
    cases he : phaseEval cfg phase s with
    | error e => rw [he] at h; exact Except.noConfusion h
    | ok r =>
      obtain ⟨s₁, st⟩ := r
      rw [he] at h
      exact ⟨s₁, st, rfl, (Except.ok.inj h).symm⟩
  · rintro ⟨s₁, st, he, rfl⟩
    unfold runPhase
    rw [he]
    exact rfl

/-- `bestUpdate` on a "train" phase does nothing (the guard on line 83 and
the `elif` on line 96 both require `phase == "val"`). -/
theorem bestUpdate_train (cfg : Cfg P O) (epoch : Nat) (s : TrainState P O)
    (st : PhaseStats) : bestUpdate cfg "train" epoch s st = s := rfl

/-- `bestUpdate` on a "val" phase when the update condition holds. -/
theorem bestUpdate_val_improve (cfg : Cfg P O) (epoch : Nat)
    (s : TrainState P O) (st : PhaseStats)
    (hc : (st.epoch_loss : WithTop ℚ) < s.best_metrics.val_loss ∨
          s.best_metrics.val_recall < st.epoch_recall) :
    bestUpdate cfg "val" epoch s st =
      { s with
        best_metrics :=
          { epoch := epoch + 1, val_loss := (st.epoch_loss : WithTop ℚ)
            val_accuracy := st.epoch_accuracy, val_precision := st.epoch_precision
            val_recall := st.epoch_recall, val_f1 := st.epoch_f1 }
        best_model_wts := s.params
        files := s.files ++ [(cfg.output_filename, s.params)]
        patience_left := cfg.patience } := by
  unfold bestUpdate
  rw [if_pos (show (("val" : String) == "val") = true from rfl), if_pos hc]

/-- `bestUpdate` on a "val" phase when the update condition fails: only the
patience counter changes, by exactly one. -/
theorem bestUpdate_val_stale (cfg : Cfg P O) (epoch : Nat)
    (s : TrainState P O) (st : PhaseStats)
    (hc : ¬((st.epoch_loss : WithTop ℚ) < s.best_metrics.val_loss ∨
            s.best_metrics.val_recall < st.epoch_recall)) :
    bestUpdate cfg "val" epoch s st = { s with patience_left := s.patience_left - 1 } := by
  unfold bestUpdate
  rw [if_pos (show (("val" : String) == "val") = true from rfl), if_neg hc]

/-- A successful "train" phase changes none of: best metrics, best weights,
saved files, patience. -/
theorem runPhase_train_frame (cfg : Cfg P O) (epoch : Nat)
    (s s' : TrainState P O) (h : runPhase cfg "train" epoch s = .ok s') :
    s'.best_metrics = s.best_metrics ∧ s'.best_model_wts = s.best_model_wts ∧
    s'.files = s.files ∧ s'.patience_left = s.patience_left ∧
    s'.epochs_done = s.epochs_done ∧ s'.sched_steps = s.sched_steps := by
  obtain ⟨s₁, st, he, hbu⟩ := (runPhase_ok_iff cfg "train" epoch s s').mp h
  rw [hbu, bestUpdate_train]
  exact phaseEval_frame cfg "train" s s₁ st he

/-- One iteration of the epoch loop, unfolded: run the two phases, then
break when patience is exhausted, else advance the scheduler and recurse. -/
theorem epochLoop_succ (cfg : Cfg P O) (n epoch : Nat) (s sA sB : TrainState P O)
    (hA : runPhase cfg "train" epoch s = .ok sA)
    (hB : runPhase cfg "val" epoch sA = .ok sB) :
    epochLoop cfg (n + 1) epoch s =
      (if sB.patience_left ≤ 0 then .ok { sB with epochs_done := sB.epochs_done + 1 }
       else epochLoop cfg n (epoch + 1)
         (if cfg.hasScheduler
          then { sB with epochs_done := sB.epochs_done + 1
                         sched_steps := sB.sched_steps + 1 }
          else { sB with epochs_done := sB.epochs_done + 1 })) := by
  rw [epochLoop, hA]
  show (do
      let s ← runPhase cfg "val" epoch sA
      let s := { s with epochs_done := s.epochs_done + 1 }
      if s.patience_left ≤ 0 then .ok s
      else
        let s := if cfg.hasScheduler
          then { s with sched_steps := s.sched_steps + 1 } else s
        epochLoop cfg n (epoch + 1) s) = _
  rw [hB]
  exact rfl

/-- An error in the "train" phase of the first remaining epoch aborts the
loop with that error. -/
theorem epochLoop_err_train (cfg : Cfg P O) (n epoch : Nat)
    (s : TrainState P O) (e : PyError)
    (hA : runPhase cfg "train" epoch s = .error e) :
    epochLoop cfg (n + 1) epoch s = .error e := by
  rw [epochLoop, hA]
  exact rfl

/-- An error in the "val" phase of the first remaining epoch aborts the
loop with that error. -/
theorem epochLoop_err_val (cfg : Cfg P O) (n epoch : Nat)
    (s sA : TrainState P O) (e : PyError)
    (hA : runPhase cfg "train" epoch s = .ok sA)
    (hB : runPhase cfg "val" epoch sA = .error e) :
    epochLoop cfg (n + 1) epoch s = .error e := by
  rw [epochLoop, hA]
  show (do
      let s ← runPhase cfg "val" epoch sA
      let s := { s with epochs_done := s.epochs_done + 1 }
      if s.patience_left ≤ 0 then .ok s
      else
        let s := if cfg.hasScheduler
          then { s with sched_steps := s.sched_steps + 1 } else s
        epochLoop cfg n (epoch + 1) s) = _
  rw [hB]
  exact rfl

/-! ## The best-snapshot invariant (for the final weight restoration) -/

/-- Invariant tying `best_model_wts` to the checkpoint file writes: while no
checkpoint has been written, the stored snapshot is still the initial deep
copy; once checkpoints exist, it equals the last one written. -/
def SnapInv (params₀ : P) (s : TrainState P O) : Prop :=
  (s.files = [] → s.best_model_wts = params₀) ∧
  (∀ fn w, s.files.getLast? = some (fn, w) → s.best_model_wts = w)

theorem SnapInv_congr (params₀ : P) (s s' : TrainState P O)
    (hf : s'.files = s.files) (hw : s'.best_model_wts = s.best_model_wts)
    (h : SnapInv params₀ s) : SnapInv params₀ s' := by
  unfold SnapInv
  rw [hf, hw]
  exact h

theorem bestUpdate_snapinv (cfg : Cfg P O) (params₀ : P) (phase : String)
    (epoch : Nat) (s : TrainState P O) (st : PhaseStats)
    (h : SnapInv params₀ s) :
    SnapInv params₀ (bestUpdate cfg phase epoch s st) := by
  unfold bestUpdate
  split
  · split
    · constructor
      · intro hfiles
        simp at hfiles
      · intro fn w hlast
        simp only [List.getLast?_concat] at hlast
        exact (Prod.mk.injEq .. ▸ (Option.some.inj hlast)).2
    · exact h
  · exact h

theorem epochLoop_snapinv (cfg : Cfg P O) (params₀ : P) :
    ∀ (n epoch : Nat) (s s' : TrainState P O),
    epochLoop cfg n epoch s = .ok s' → SnapInv params₀ s → SnapInv params₀ s'
  | 0, epoch, s, s', h, hinv => by
      rw [epochLoop] at h
      rw [← Except.ok.inj h]
      exact hinv
  | n + 1, epoch, s, s', h, hinv => by
      cases hA : runPhase cfg "train" epoch s with
      | error e => rw [epochLoop_err_train cfg n epoch s e hA] at h
                   exact Except.noConfusion h
      | ok sA =>
        cases hB : runPhase cfg "val" epoch sA with
        | error e => rw [epochLoop_err_val cfg n epoch s sA e hA hB] at h
                     exact Except.noConfusion h
        | ok sB =>
          have hinvA : SnapInv params₀ sA := by
            obtain ⟨-, m₂, m₃, -⟩ := runPhase_train_frame cfg epoch s sA hA
            exact SnapInv_congr params₀ s sA m₃ m₂ hinv
          have hinvB : SnapInv params₀ sB := by
            obtain ⟨s₁, st, he, hbu⟩ := (runPhase_ok_iff cfg "val" epoch sA sB).mp hB
            obtain ⟨-, m₂, m₃, -⟩ := phaseEval_frame cfg "val" sA s₁ st he
            rw [hbu]
            exact bestUpdate_snapinv cfg params₀ "val" epoch s₁ st
              (SnapInv_congr params₀ sA s₁ m₃ m₂ hinvA)
          rw [epochLoop_succ cfg n epoch s sA sB hA hB] at h
          by_cases hpat : sB.patience_left ≤ 0
          · rw [if_pos hpat] at h
            rw [← Except.ok.inj h]
            exact SnapInv_congr params₀ sB _ rfl rfl hinvB
          · rw [if_neg hpat] at h
            by_cases hsch : cfg.hasScheduler
            · rw [if_pos hsch] at h
              exact epochLoop_snapinv cfg params₀ n (epoch + 1) _ s' h
                (SnapInv_congr params₀ sB _ rfl rfl hinvB)
            · rw [if_neg hsch] at h
              exact epochLoop_snapinv cfg params₀ n (epoch + 1) _ s' h
                (SnapInv_congr params₀ sB _ rfl rfl hinvB)

/-- Decomposition of a successful `train_model` run. -/
theorem train_model_ok_elim (cfg : Cfg P O) (params₀ : P) (training₀ : Bool)
    (opt₀ : O) (s' : TrainState P O)
    (h : train_model cfg params₀ training₀ opt₀ = .ok s') :
    ∃ s, epochLoop cfg cfg.num_epochs 0 (initState cfg params₀ training₀ opt₀) =
        .ok s ∧ s' = { s with params := s.best_model_wts } := by
  unfold train_model at h
  cases hl : epochLoop cfg cfg.num_epochs 0 (initState cfg params₀ training₀ opt₀) with
  | error e => rw [hl] at h; exact Except.noConfusion h
  | ok s => rw [hl] at h; exact ⟨s, rfl, (Except.ok.inj h).symm⟩

/-! ## The weighted running-loss sum (epoch loss specification) -/

/-- An unpacked batch: image tensor, label tensor, optional feature tensor. -/
abbrev UBatch := Tensor × LabelTensor × Option Tensor

/-- Unpack a whole list of raw batches, failing on the first bad one. -/
def unpackAll (use_features : Bool) : List RawBatch → Except PyError (List UBatch)
  | [] => .ok []
  | d :: rest => do
      let u ← unpackBatch use_features d
      let us ← unpackAll use_features rest
      .ok (u :: us)

/-- The specification of the phase loss accumulator: the sum over the
phase's batches of (batch loss × batch size), where the loss of each batch
is computed at the parameters in force when that batch is processed
(parameters advance by one optimizer step per batch on "train" phases and
stay fixed otherwise). -/
def lossSumSpec (cfg : Cfg P O) (phase : String) : P → O → List UBatch → ℚ
  | _, _, [] => 0
  | p, o, b :: rest =>
      let labels := if cfg.use_gpu then b.2.1.to cfg.device else b.2.1
      let loss := cfg.criterion (cfg.forwardF p b.1 b.2.2) labels
      let po := if phase == "train" then cfg.stepF p o b.1 b.2.2 labels else (p, o)
      loss * b.1.rows.length + lossSumSpec cfg phase po.1 po.2 rest

/-- The running-loss accumulator of the batch loop computes exactly
`lossSumSpec`. -/
theorem runBatches_loss (cfg : Cfg P O) (phase : String) :
    ∀ (bs : List RawBatch) (ubs : List UBatch) (s s' : TrainState P O)
      (acc acc' : PhaseAcc),
    unpackAll cfg.use_features bs = .ok ubs →
    runBatches cfg phase s acc bs = .ok (s', acc') →
    acc'.running_loss =
      acc.running_loss + lossSumSpec cfg phase s.params s.opt ubs
  | [], ubs, s, s', acc, acc', hu, h => by
      rw [runBatches] at h
      obtain ⟨h₁, h₂⟩ := Prod.mk.injEq .. ▸ Except.ok.inj h
      rw [← Except.ok.inj hu, ← h₂]
      simp [lossSumSpec]
  | d :: rest, ubs, s, s', acc, acc', hu, h => by
      rw [unpackAll] at hu
      cases hub : unpackBatch cfg.use_features d with
      | error e => rw [hub] at hu; exact Except.noConfusion hu
      | ok u =>
        rw [hub] at hu
        cases hurest : unpackAll cfg.use_features rest with
        | error e => rw [hurest] at hu; exact Except.noConfusion hu
        | ok us =>
          rw [hurest] at hu
          replace hu : u :: us = ubs := Except.ok.inj hu
          obtain ⟨i, l, f?⟩ := u
          rw [runBatches] at h
          rw [batchStep_ok_char cfg phase s acc d i l f? hub] at h
          simp only at h
          rw [← hu]
          have ih := runBatches_loss cfg phase rest us _ s' _ acc' hurest h
          rw [ih]
          by_cases ht : (phase == "train") = true
          · simp only [lossSumSpec, ht, if_pos]
            rw [add_assoc]
            exact rfl
          · rw [Bool.not_eq_true] at ht
            simp only [lossSumSpec, ht]
            rw [add_assoc]
            exact rfl

/-! ## Patience behaviour of a "val" phase -/

/-- After a successful "val" phase the patience counter either was reset to
the configured `patience` (update case) or dropped by exactly one. -/
theorem runPhase_val_patience (cfg : Cfg P O) (epoch : Nat)
    (s s' : TrainState P O) (h : runPhase cfg "val" epoch s = .ok s') :
    s'.patience_left = cfg.patience ∨
    s'.patience_left = s.patience_left - 1 := by
  obtain ⟨s₁, st, he, hbu⟩ := (runPhase_ok_iff cfg "val" epoch s s').mp h
  obtain ⟨-, -, -, hp, -⟩ := phaseEval_frame cfg "val" s s₁ st he
  by_cases hc : (st.epoch_loss : WithTop ℚ) < s₁.best_metrics.val_loss ∨
      s₁.best_metrics.val_recall < st.epoch_recall
  · left
    rw [hbu, bestUpdate_val_improve cfg epoch s₁ st hc]
  · right
    rw [hbu, bestUpdate_val_stale cfg epoch s₁ st hc]
    show s₁.patience_left - 1 = s.patience_left - 1
    rw [hp]

/-! ## Unpacking arity failures -/

theorem unpackBatch_arity_features (data : RawBatch) (hlen : data.length ≠ 3) :
    unpackBatch true data =
      .error (.valueError "cannot unpack batch into (image, labels, features)") := by
  rcases data with - | ⟨a, - | ⟨b, - | ⟨c, - | ⟨d, rest⟩⟩⟩⟩
  · rfl
  · cases a <;> rfl
  · cases a <;> cases b <;> rfl
  · exact absurd rfl hlen
  · cases a <;> cases b <;> cases c <;> cases d <;> rfl

theorem unpackBatch_arity_nofeatures (data : RawBatch) (hlen : data.length ≠ 2) :
    unpackBatch false data =
      .error (.valueError "cannot unpack batch into (image, labels)") := by
  rcases data with - | ⟨a, - | ⟨b, - | ⟨c, rest⟩⟩⟩
  · rfl
  · cases a <;> rfl
  · exact absurd rfl hlen
  · cases a <;> cases b <;> cases c <;> rfl

/-! ## Error propagation -/

/-- A batch that fails to unpack aborts the batch loop with its error, no
matter how many good batches preceded it. -/
theorem runBatches_append_err (cfg : Cfg P O) (phase : String) :
    ∀ (good : List RawBatch) (s : TrainState P O) (acc : PhaseAcc)
      (r : TrainState P O × PhaseAcc) (data : RawBatch) (rest : List RawBatch)
      (e : PyError),
    runBatches cfg phase s acc good = .ok r →
    unpackBatch cfg.use_features data = .error e →
    runBatches cfg phase s acc (good ++ data :: rest) = .error e
  | [], s, acc, r, data, rest, e, hok, hue => by
      rw [List.nil_append, runBatches,
        batchStep_err cfg phase s acc data e hue]
      exact rfl
  | g :: good, s, acc, r, data, rest, e, hok, hue => by
      rw [runBatches] at hok
      rw [List.cons_append, runBatches]
      cases hb : batchStep cfg phase s acc g with
      | error e₂ => rw [hb] at hok; exact Except.noConfusion hok
      | ok r₂ =>
        rw [hb] at hok
        show runBatches cfg phase r₂.1 r₂.2 (good ++ data :: rest) = .error e
        exact runBatches_append_err cfg phase good r₂.1 r₂.2 r data rest e hok hue

/-- A missing phase key makes phase evaluation fail with `KeyError`. -/
theorem phaseEval_keyError (cfg : Cfg P O) (phase : String)
    (s : TrainState P O) (hdl : cfg.dataloaders phase = none) :
    phaseEval cfg phase s = .error (.keyError phase) := by
  unfold phaseEval
  rw [hdl]

/-- A batch that fails to unpack makes phase evaluation fail with its
error. -/
theorem phaseEval_err_of_batch (cfg : Cfg P O) (phase : String)
    (s : TrainState P O) (good : List RawBatch) (data : RawBatch)
    (rest : List RawBatch) (r : TrainState P O × PhaseAcc) (e : PyError)
    (hdl : cfg.dataloaders phase = some (good ++ data :: rest))
    (hok : runBatches cfg phase { s with training := phase == "train" }
      { running_loss := 0, all_preds := [], all_labels := [] } good = .ok r)
    (hue : unpackBatch cfg.use_features data = .error e) :
    phaseEval cfg phase s = .error e := by
  unfold phaseEval
  rw [hdl]
  show ((do
      let r ← runBatches cfg phase { s with training := phase == "train" }
        { running_loss := 0, all_preds := [], all_labels := [] }
        (good ++ data :: rest)
      match cfg.dataset_sizes phase with
      | none => Except.error (PyError.keyError phase)
      | some n =>
        if n = 0 then Except.error PyError.zeroDivisionError
        else Except.ok (r.1,
          ({ epoch_loss := r.2.running_loss / n,
             epoch_accuracy := accuracy_score r.2.all_labels r.2.all_preds,
             epoch_precision := precision_score r.2.all_labels r.2.all_preds,
             epoch_recall := recall_score r.2.all_labels r.2.all_preds,
             epoch_f1 := f1_score r.2.all_labels r.2.all_preds } : PhaseStats))) :
      Except PyError (TrainState P O × PhaseStats)) = .error e
  rw [runBatches_append_err cfg phase good _ _ r data rest e hok hue]
  exact rfl

/-- `runPhase` propagates a phase-evaluation error. -/
theorem runPhase_err (cfg : Cfg P O) (phase : String) (epoch : Nat)
    (s : TrainState P O) (e : PyError)
    (h : phaseEval cfg phase s = .error e) :
    runPhase cfg phase epoch s = .error e := by
  unfold runPhase
  rw [h]
  exact rfl

/-- `train_model` propagates an error of the very first "train" phase. -/
theorem train_model_err_train (cfg : Cfg P O) (params₀ : P) (training₀ : Bool)
    (opt₀ : O) (e : PyError) (hn : 1 ≤ cfg.num_epochs)
    (h : runPhase cfg "train" 0 (initState cfg params₀ training₀ opt₀) = .error e) :
    train_model cfg params₀ training₀ opt₀ = .error e := by
  unfold train_model
  obtain ⟨m, hm⟩ : ∃ m, cfg.num_epochs = m + 1 :=
    ⟨cfg.num_epochs - 1, (Nat.succ_pred_eq_of_pos hn).symm⟩
  rw [hm, epochLoop_err_train cfg m 0 _ e h]
  exact rfl

/-- `train_model` propagates an error of the very first "val" phase. -/
theorem train_model_err_val (cfg : Cfg P O) (params₀ : P) (training₀ : Bool)
    (opt₀ : O) (sA : TrainState P O) (e : PyError) (hn : 1 ≤ cfg.num_epochs)
    (hA : runPhase cfg "train" 0 (initState cfg params₀ training₀ opt₀) = .ok sA)
    (h : runPhase cfg "val" 0 sA = .error e) :
    train_model cfg params₀ training₀ opt₀ = .error e := by
  unfold train_model
  obtain ⟨m, hm⟩ : ∃ m, cfg.num_epochs = m + 1 :=
    ⟨cfg.num_epochs - 1, (Nat.succ_pred_eq_of_pos hn).symm⟩
  rw [hm, epochLoop_err_val cfg m 0 _ sA e hA h]
  exact rfl

/-! ## Per-class metric facts -/

theorem truePos_eq_zero_of_not_true (y_true y_pred : List ℤ) (c : ℤ)
    (h : c ∉ y_true) : truePos y_true y_pred c = 0 := by
  unfold truePos
  rw [List.countP_eq_zero]
  intro ab hab
  simp only [decide_eq_true_eq, not_and]
  intro h1
  exact absurd (h1 ▸ (List.of_mem_zip hab).1) h

theorem truePos_eq_zero_of_not_pred (y_true y_pred : List ℤ) (c : ℤ)
    (h : c ∉ y_pred) : truePos y_true y_pred c = 0 := by
  unfold truePos
  rw [List.countP_eq_zero]
  intro ab hab
  simp only [decide_eq_true_eq, not_and]
  intro h1 h2
  exact absurd (h2 ▸ (List.of_mem_zip hab).2) h

theorem precisionOf_eq_zero (y_true y_pred : List ℤ) (c : ℤ)
    (h : c ∉ y_true ∨ c ∉ y_pred) : precisionOf y_true y_pred c = 0 := by
  unfold precisionOf
  cases h with
  | inl h =>
    rw [truePos_eq_zero_of_not_true y_true y_pred c h]
    simp
  | inr h =>
    rw [if_pos]
    rw [List.countP_eq_zero]
    intro a ha
    simp only [decide_eq_true_eq]
    intro h1
    exact absurd (h1 ▸ ha) h

theorem recallOf_eq_zero (y_true y_pred : List ℤ) (c : ℤ)
    (h : c ∉ y_true ∨ c ∉ y_pred) : recallOf y_true y_pred c = 0 := by
  unfold recallOf
  cases h with
  | inl h =>
    rw [if_pos]
    rw [List.countP_eq_zero]
    intro a ha
    simp only [decide_eq_true_eq]
    intro h1
    exact absurd (h1 ▸ ha) h
  | inr h =>
    rw [truePos_eq_zero_of_not_pred y_true y_pred c h]
    simp

theorem f1Of_eq_zero (y_true y_pred : List ℤ) (c : ℤ)
    (h : c ∉ y_true ∨ c ∉ y_pred) : f1Of y_true y_pred c = 0 := by
  unfold f1Of
  rw [precisionOf_eq_zero y_true y_pred c h, recallOf_eq_zero y_true y_pred c h]
  simp

/-- The macro average is literally the unweighted mean of the per-class
scores over the classes present in the data (the degenerate empty-class
case yields 0 on both sides since division by zero is zero in `ℚ`). -/
theorem macroAvg_eq_mean (score : List ℤ → List ℤ → ℤ → ℚ)
    (y_true y_pred : List ℤ) :
    macroAvg score y_true y_pred =
      ((classesOf y_true y_pred).map (score y_true y_pred)).sum /
        (classesOf y_true y_pred).length := by
  unfold macroAvg
  split
  next h => rw [List.length_eq_zero.mp h]; simp
  next h => rfl

/-- `bestUpdate` never touches the model parameters, the optimizer state,
or any of the per-batch observation logs and counters. -/
theorem bestUpdate_rest (cfg : Cfg P O) (phase : String) (epoch : Nat)
    (s : TrainState P O) (st : PhaseStats) :
    (bestUpdate cfg phase epoch s st).params = s.params ∧
    (bestUpdate cfg phase epoch s st).opt = s.opt ∧
    (bestUpdate cfg phase epoch s st).opt_steps = s.opt_steps ∧
    (bestUpdate cfg phase epoch s st).grad_modes = s.grad_modes ∧
    (bestUpdate cfg phase epoch s st).batches_seen = s.batches_seen ∧
    (bestUpdate cfg phase epoch s st).forward_args = s.forward_args ∧
    (bestUpdate cfg phase epoch s st).epochs_done = s.epochs_done ∧
    (bestUpdate cfg phase epoch s st).sched_steps = s.sched_steps := by
  unfold bestUpdate
  split
  · split
    · exact ⟨rfl, rfl, rfl, rfl, rfl, rfl, rfl, rfl⟩
    · exact ⟨rfl, rfl, rfl, rfl, rfl, rfl, rfl, rfl⟩
  · exact ⟨rfl, rfl, rfl, rfl, rfl, rfl, rfl, rfl⟩

/-- Neither phase ever touches the epoch and scheduler counters. -/
theorem runPhase_counters (cfg : Cfg P O) (phase : String) (epoch : Nat)
    (s s' : TrainState P O) (h : runPhase cfg phase epoch s = .ok s') :
    s'.epochs_done = s.epochs_done ∧ s'.sched_steps = s.sched_steps := by
  obtain ⟨s₁, st, he, hbu⟩ := (runPhase_ok_iff cfg phase epoch s s').mp h
  obtain ⟨-, -, -, -, f₅, f₆⟩ := phaseEval_frame cfg phase s s₁ st he
  obtain ⟨-, -, -, -, -, -, b₇, b₈⟩ := bestUpdate_rest cfg phase epoch s₁ st
  rw [hbu]
  exact ⟨b₇.trans f₅, b₈.trans f₆⟩

/-! ## The claims -/

/-- C1: On every "val" phase, the best checkpoint is updated if and only if
the epoch's validation loss is strictly less than the stored best val_loss
OR the epoch's macro recall is strictly greater than the stored best
val_recall; on update, all six BestMetrics fields are replaced with the
current epoch's values, a deep copy of the model parameters is stored, the
snapshot is persisted to output_filename, and the patience counter is
reset; no update ever happens during a "train" phase. -/
theorem claim_C1 (cfg : Cfg P O) (epoch : Nat) (s s₁ : TrainState P O)
    (st : PhaseStats) (hval : phaseEval cfg "val" s = .ok (s₁, st)) :
    (((st.epoch_loss : WithTop ℚ) < s.best_metrics.val_loss ∨
        s.best_metrics.val_recall < st.epoch_recall) →
      runPhase cfg "val" epoch s = .ok
        { s₁ with
          best_metrics :=
            { epoch := epoch + 1, val_loss := (st.epoch_loss : WithTop ℚ),
              val_accuracy := st.epoch_accuracy,
              val_precision := st.epoch_precision,
              val_recall := st.epoch_recall, val_f1 := st.epoch_f1 },
          best_model_wts := s₁.params,
          files := s₁.files ++ [(cfg.output_filename, s₁.params)],
          patience_left := cfg.patience }) ∧
    (¬((st.epoch_loss : WithTop ℚ) < s.best_metrics.val_loss ∨
        s.best_metrics.val_recall < st.epoch_recall) →
      runPhase cfg "val" epoch s =
        .ok { s₁ with patience_left := s₁.patience_left - 1 }) ∧
    (∀ s', runPhase cfg "train" epoch s = .ok s' →
      s'.best_metrics = s.best_metrics ∧
      s'.best_model_wts = s.best_model_wts ∧
      s'.files = s.files ∧ s'.patience_left = s.patience_left) := by
  obtain ⟨m₁, -⟩ := phaseEval_frame cfg "val" s s₁ st hval
  have hrp : runPhase cfg "val" epoch s = .ok (bestUpdate cfg "val" epoch s₁ st) :=
    (runPhase_ok_iff cfg "val" epoch s _).mpr ⟨s₁, st, hval, rfl⟩
  refine ⟨?_, ?_, ?_⟩
  · intro hc
    rw [hrp, bestUpdate_val_improve cfg epoch s₁ st (by rw [m₁]; exact hc)]
  · intro hc
    rw [hrp, bestUpdate_val_stale cfg epoch s₁ st (by rw [m₁]; exact hc)]
  · intro s' h
    obtain ⟨t₁, t₂, t₃, t₄, -⟩ := runPhase_train_frame cfg epoch s s' h
    exact ⟨t₁, t₂, t₃, t₄⟩

/-- C2: The patience counter starts at the configured patience value, is
reset to that configured maximum on any best-checkpoint update, is
decremented by exactly one on every non-improving validation phase (and is
never changed by a "train" phase), and the epoch loop terminates early
exactly when, after an epoch's two phases, the counter is ≤ 0 — not before
and not after. -/
theorem claim_C2 (cfg : Cfg P O) (params₀ : P) (training₀ : Bool) (opt₀ : O) :
    ((initState cfg params₀ training₀ opt₀).patience_left = cfg.patience) ∧
    (∀ (epoch : Nat) (s s₁ : TrainState P O) (st : PhaseStats),
      phaseEval cfg "val" s = .ok (s₁, st) →
      ∀ s', runPhase cfg "val" epoch s = .ok s' →
      s'.patience_left =
        (if (st.epoch_loss : WithTop ℚ) < s.best_metrics.val_loss ∨
            s.best_metrics.val_recall < st.epoch_recall
         then cfg.patience else s.patience_left - 1)) ∧
    (∀ (epoch : Nat) (s s' : TrainState P O),
      runPhase cfg "train" epoch s = .ok s' →
      s'.patience_left = s.patience_left) ∧
    (∀ (n epoch : Nat) (s sA sB : TrainState P O),
      runPhase cfg "train" epoch s = .ok sA →
      runPhase cfg "val" epoch sA = .ok sB →
      epochLoop cfg (n + 1) epoch s =
        (if sB.patience_left ≤ 0
         then .ok { sB with epochs_done := sB.epochs_done + 1 }
         else epochLoop cfg n (epoch + 1)
           (if cfg.hasScheduler
            then { sB with epochs_done := sB.epochs_done + 1,
                           sched_steps := sB.sched_steps + 1 }
            else { sB with epochs_done := sB.epochs_done + 1 }))) := by
  refine ⟨rfl, ?_, ?_, ?_⟩
  · intro epoch s s₁ st hval s' h
    obtain ⟨s₁', st', hval', hbu⟩ := (runPhase_ok_iff cfg "val" epoch s s').mp h
    rw [hval] at hval'
    obtain ⟨hs₁, hst⟩ := Prod.mk.injEq .. ▸ Except.ok.inj hval'
    subst hs₁; subst hst
    obtain ⟨m₁, -, -, m₄, -⟩ := phaseEval_frame cfg "val" s s₁ st hval
    by_cases hc : (st.epoch_loss : WithTop ℚ) < s.best_metrics.val_loss ∨
        s.best_metrics.val_recall < st.epoch_recall
    · rw [if_pos hc, hbu,
        bestUpdate_val_improve cfg epoch s₁ st (by rw [m₁]; exact hc)]
    · rw [if_neg hc, hbu,
        bestUpdate_val_stale cfg epoch s₁ st (by rw [m₁]; exact hc)]
      show s₁.patience_left - 1 = s.patience_left - 1
      rw [m₄]
  · intro epoch s s' h
    exact (runPhase_train_frame cfg epoch s s' h).2.2.2.1
  · intro n epoch s sA sB hA hB
    exact epochLoop_succ cfg n epoch s sA sB hA hB

/-- C3: When train_model returns, the model's parameters equal the
last-saved best validation snapshot, not the parameters left by the final
epoch's training step; if no best-checkpoint update ever occurred, the
parameters equal the deep copy taken at initialization (the model's
pre-training state). -/
theorem claim_C3 (cfg : Cfg P O) (params₀ : P) (training₀ : Bool) (opt₀ : O)
    (s' : TrainState P O)
    (h : train_model cfg params₀ training₀ opt₀ = .ok s') :
    s'.params = s'.best_model_wts ∧
    (s'.files = [] → s'.params = params₀) ∧
    (∀ fn w, s'.files.getLast? = some (fn, w) → s'.params = w) := by
  obtain ⟨s, hl, heq⟩ := train_model_ok_elim cfg params₀ training₀ opt₀ s' h
  have hinv : SnapInv params₀ s :=
    epochLoop_snapinv cfg params₀ cfg.num_epochs 0 _ s hl
      ⟨fun _ => rfl, fun fn w hw => Option.noConfusion hw⟩
  subst heq
  exact ⟨rfl, hinv.1, hinv.2⟩

/-- C4: For every phase of every epoch, the reported epoch loss equals the
sum over the phase's batches of (batch loss × batch size), divided by that
phase's total sample count taken from dataset_sizes — not divided by the
number of batches — so it is correct even when batch sizes are unequal. -/
theorem claim_C4 (cfg : Cfg P O) (phase : String) (s s₁ : TrainState P O)
    (st : PhaseStats) (bs : List RawBatch) (ubs : List UBatch) (n : Nat)
    (hdl : cfg.dataloaders phase = some bs)
    (hds : cfg.dataset_sizes phase = some n)
    (hu : unpackAll cfg.use_features bs = .ok ubs)
    (h : phaseEval cfg phase s = .ok (s₁, st)) :
    st.epoch_loss = lossSumSpec cfg phase s.params s.opt ubs / n := by
  obtain ⟨bs', n', acc, hdl', hds', -, hrb, hst⟩ :=
    phaseEval_ok_elim cfg phase s s₁ st h
  rw [hdl] at hdl'
  rw [hds] at hds'
  obtain rfl : bs = bs' := Option.some.inj hdl'
  obtain rfl : n = n' := Option.some.inj hds'
  have hloss := runBatches_loss cfg phase bs ubs _ s₁ _ acc hu hrb
  rw [hst]
  show acc.running_loss / n = lossSumSpec cfg phase s.params s.opt ubs / n
  rw [hloss]
  show (0 + lossSumSpec cfg phase s.params s.opt ubs) / n = _
  rw [zero_add]

/-- C5: If train_model is called with num_epochs = 0, no training iteration
is performed (no batch is consumed, no optimizer step runs, no checkpoint
is written) and the returned model's parameters equal its parameters at
call time, via restoration of the initial deep copy. -/
theorem claim_C5 (cfg : Cfg P O) (params₀ : P) (training₀ : Bool) (opt₀ : O)
    (h : cfg.num_epochs = 0) :
    ∃ s', train_model cfg params₀ training₀ opt₀ = .ok s' ∧
      s'.params = params₀ ∧ s'.batches_seen = 0 ∧ s'.opt_steps = 0 ∧
      s'.files = [] ∧ s'.epochs_done = 0 := by
  refine ⟨{ initState cfg params₀ training₀ opt₀ with params := params₀ },
    ?_, rfl, rfl, rfl, rfl, rfl⟩
  unfold train_model
  rw [h]
  exact rfl

/-- C6: If the dataloaders mapping lacks the "train" or "val" key,
train_model fails with a lookup error; and if a batch's arity does not
match the use_features flag (a 2-tuple with use_features=true, or a 3-tuple
with use_features=false — more generally, any arity other than the expected
one), it fails with a structural unpacking error; in both cases the error
propagates uncaught to the caller. -/
theorem claim_C6 (cfg : Cfg P O) (params₀ : P) (training₀ : Bool) (opt₀ : O)
    (hn : 1 ≤ cfg.num_epochs) :
    (cfg.dataloaders "train" = none →
      train_model cfg params₀ training₀ opt₀ = .error (.keyError "train")) ∧
    (∀ sA, runPhase cfg "train" 0 (initState cfg params₀ training₀ opt₀) = .ok sA →
      cfg.dataloaders "val" = none →
      train_model cfg params₀ training₀ opt₀ = .error (.keyError "val")) ∧
    (∀ data : RawBatch, cfg.use_features = true → data.length ≠ 3 →
      unpackBatch cfg.use_features data =
        .error (.valueError "cannot unpack batch into (image, labels, features)")) ∧
    (∀ data : RawBatch, cfg.use_features = false → data.length ≠ 2 →
      unpackBatch cfg.use_features data =
        .error (.valueError "cannot unpack batch into (image, labels)")) ∧
    (∀ (good : List RawBatch) (data : RawBatch) (rest : List RawBatch)
       (r : TrainState P O × PhaseAcc) (msg : String),
      cfg.dataloaders "train" = some (good ++ data :: rest) →
      runBatches cfg "train"
        { initState cfg params₀ training₀ opt₀ with training := true }
        { running_loss := 0, all_preds := [], all_labels := [] } good = .ok r →
      unpackBatch cfg.use_features data = .error (.valueError msg) →
      train_model cfg params₀ training₀ opt₀ = .error (.valueError msg)) := by
  refine ⟨?_, ?_, ?_, ?_, ?_⟩
  · intro hdl
    exact train_model_err_train cfg params₀ training₀ opt₀ _ hn
      (runPhase_err cfg "train" 0 _ _
        (phaseEval_keyError cfg "train" _ hdl))
  · intro sA hA hdl
    exact train_model_err_val cfg params₀ training₀ opt₀ sA _ hn hA
      (runPhase_err cfg "val" 0 sA _ (phaseEval_keyError cfg "val" sA hdl))
  · intro data hf hlen
    rw [hf]
    exact unpackBatch_arity_features data hlen
  · intro data hf hlen
    rw [hf]
    exact unpackBatch_arity_nofeatures data hlen
  · intro good data rest r msg hdl hok hue
    exact train_model_err_train cfg params₀ training₀ opt₀ _ hn
      (runPhase_err cfg "train" 0 _ _
        (phaseEval_err_of_batch cfg "train" _ good data rest r _ hdl hok hue))

/-- C7: For every phase, the macro-averaged precision, recall and F1 are
the unweighted mean of per-class scores over all predictions and labels
collected in that phase, and a class with no true or no predicted members
contributes a score of zero instead of raising an error. -/
theorem claim_C7 (y_true y_pred : List ℤ) (c : ℤ)
    (hcls : c ∈ classesOf y_true y_pred)
    (hmiss : c ∉ y_true ∨ c ∉ y_pred) :
    (precision_score y_true y_pred =
        ((classesOf y_true y_pred).map (precisionOf y_true y_pred)).sum /
          (classesOf y_true y_pred).length ∧
      recall_score y_true y_pred =
        ((classesOf y_true y_pred).map (recallOf y_true y_pred)).sum /
          (classesOf y_true y_pred).length ∧
      f1_score y_true y_pred =
        ((classesOf y_true y_pred).map (f1Of y_true y_pred)).sum /
          (classesOf y_true y_pred).length) ∧
    (precisionOf y_true y_pred c = 0 ∧ recallOf y_true y_pred c = 0 ∧
      f1Of y_true y_pred c = 0) := by
  refine ⟨⟨macroAvg_eq_mean precisionOf y_true y_pred,
           macroAvg_eq_mean recallOf y_true y_pred,
           macroAvg_eq_mean f1Of y_true y_pred⟩,
          precisionOf_eq_zero y_true y_pred c hmiss,
          recallOf_eq_zero y_true y_pred c hmiss,
          f1Of_eq_zero y_true y_pred c hmiss⟩

/-- C8: Back-propagation and the optimizer update step are executed only
when the phase is "train"; during every "val" phase the model's parameters
are held fixed, gradient tracking is disabled, and the forward outputs are
the same as they would be with gradient tracking enabled. -/
theorem claim_C8 (cfg : Cfg P O) (epoch : Nat) (s s' : TrainState P O)
    (h : runPhase cfg "val" epoch s = .ok s') :
    s'.params = s.params ∧ s'.opt = s.opt ∧ s'.opt_steps = s.opt_steps ∧
    (∃ k, s'.grad_modes = s.grad_modes ++ List.replicate k false) ∧
    (∀ (g g' : Bool) (p : P) (i : Tensor) (f? : Option Tensor),
      forwardIn cfg g p i f? = forwardIn cfg g' p i f?) ∧
    (∀ (t s₂ : TrainState P O) (acc acc₂ : PhaseAcc) (data : RawBatch),
      batchStep cfg "train" t acc data = .ok (s₂, acc₂) →
      s₂.opt_steps = t.opt_steps + 1 ∧
      (∀ i l f?, unpackBatch cfg.use_features data = .ok (i, l, f?) →
        s₂.params = (cfg.stepF t.params t.opt i f?
          (if cfg.use_gpu then l.to cfg.device else l)).1)) := by
  obtain ⟨s₁, st, he, hbu⟩ := (runPhase_ok_iff cfg "val" epoch s s').mp h
  obtain ⟨v₁, v₂, v₃⟩ := phaseEval_val_frame cfg "val" rfl s s₁ st he
  obtain ⟨b₁, b₂, b₃, b₄, -⟩ := bestUpdate_rest cfg "val" epoch s₁ st
  obtain ⟨batches, n, acc, -, -, -, hrb, -⟩ :=
    phaseEval_ok_elim cfg "val" s s₁ st he
  obtain ⟨k, hk⟩ := runBatches_grad cfg "val" batches _ s₁ _ acc hrb
  refine ⟨?_, ?_, ?_, ⟨k, ?_⟩, fun g g' p i f? => rfl, ?_⟩
  · rw [hbu, b₁, v₁]
  · rw [hbu, b₂, v₂]
  · rw [hbu, b₃, v₃]
  · rw [hbu, b₄, hk]
    exact rfl
  · intro t s₂ acc₀ acc₂ data hb
    cases hu : unpackBatch cfg.use_features data with
    | error e =>
      rw [batchStep_err cfg "train" t acc₀ data e hu] at hb
      exact Except.noConfusion hb
    | ok u =>
      obtain ⟨i, l, f?⟩ := u
      rw [batchStep_ok_char cfg "train" t acc₀ data i l f? hu] at hb
      simp only at hb
      obtain ⟨h₁, -⟩ := Prod.mk.injEq .. ▸ Except.ok.inj hb
      constructor
      · rw [← h₁]
        exact rfl
      · intro i' l' f?' hu'
        obtain ⟨hi, hl, hf⟩ := Prod.mk.injEq .. ▸ Prod.mk.injEq .. ▸
          Except.ok.inj hu'
        subst hi
        subst hl
        subst hf
        rw [← h₁]
        exact rfl

/-- C9: When device transfer is enabled (use_gpu true), for every batch
only the labels are moved to the target device; the input tensor (and the
auxiliary-feature tensor, when present) is passed to the model unchanged,
on whatever device it already resides. -/
theorem claim_C9 (cfg : Cfg P O) (hgpu : cfg.use_gpu = true) (phase : String)
    (s s' : TrainState P O) (acc acc' : PhaseAcc) (data : RawBatch)
    (i : Tensor) (l : LabelTensor) (f? : Option Tensor)
    (hu : unpackBatch cfg.use_features data = .ok (i, l, f?))
    (hb : batchStep cfg phase s acc data = .ok (s', acc')) :
    s'.forward_args = s.forward_args ++ [(i, f?, l.to cfg.device)] ∧
    (l.to cfg.device).device = cfg.device ∧
    (l.to cfg.device).vals = l.vals := by
  rw [batchStep_ok_char cfg phase s acc data i l f? hu] at hb
  simp only at hb
  obtain ⟨h₁, -⟩ := Prod.mk.injEq .. ▸ Except.ok.inj hb
  refine ⟨?_, rfl, rfl⟩
  rw [← h₁]
  by_cases ht : (phase == "train") = true
  · simp only [ht, if_true]
    rw [hgpu]
    exact rfl
  · rw [Bool.not_eq_true] at ht
    simp only [ht]
    rw [hgpu]
    exact rfl

/-- C10: For every call with configured patience ≤ 0 and num_epochs ≥ 1,
the loop executes exactly one epoch and then stops early regardless of
whether validation improved, because a best-checkpoint update resets the
counter to the configured value (which is ≤ 0) and a non-improving epoch
decrements it below zero, so the post-epoch check fires either way. -/
theorem claim_C10 (cfg : Cfg P O) (params₀ : P) (training₀ : Bool) (opt₀ : O)
    (s' : TrainState P O) (hp : cfg.patience ≤ 0) (hn : 1 ≤ cfg.num_epochs)
    (h : train_model cfg params₀ training₀ opt₀ = .ok s') :
    s'.epochs_done = 1 ∧ s'.sched_steps = 0 := by
  obtain ⟨s, hl, heq⟩ := train_model_ok_elim cfg params₀ training₀ opt₀ s' h
  obtain ⟨m, hm⟩ : ∃ m, cfg.num_epochs = m + 1 :=
    ⟨cfg.num_epochs - 1, (Nat.succ_pred_eq_of_pos hn).symm⟩
  rw [hm] at hl
  cases hA : runPhase cfg "train" 0 (initState cfg params₀ training₀ opt₀) with
  | error e => rw [epochLoop_err_train cfg m 0 _ e hA] at hl
               exact Except.noConfusion hl
  | ok sA =>
    cases hB : runPhase cfg "val" 0 sA with
    | error e => rw [epochLoop_err_val cfg m 0 _ sA e hA hB] at hl
                 exact Except.noConfusion hl
    | ok sB =>
      have hpatA : sA.patience_left = cfg.patience :=
        (runPhase_train_frame cfg 0 _ sA hA).2.2.2.1
      have hpatB : sB.patience_left ≤ 0 := by
        cases runPhase_val_patience cfg 0 sA sB hB with
        | inl h2 => rw [h2]; exact hp
        | inr h2 => rw [h2, hpatA]; omega
      rw [epochLoop_succ cfg m 0 _ sA sB hA hB, if_pos hpatB] at hl
      obtain rfl : ({ sB with epochs_done := sB.epochs_done + 1 } : TrainState P O) = s :=
        Except.ok.inj hl
      obtain ⟨cA₁, cA₂⟩ := runPhase_counters cfg "train" 0 _ sA hA
      obtain ⟨cB₁, cB₂⟩ := runPhase_counters cfg "val" 0 sA sB hB
      subst heq
      constructor
      · show sB.epochs_done + 1 = 1
        rw [cB₁, cA₁]
        rfl
      · show sB.sched_steps = 0
        rw [cB₂, cA₂]
        rfl

/-! ## Concrete test instances

A tiny concrete instantiation (`P := ℤ`, one scalar weight; `O := Unit`)
exercising the loop: one one-sample training batch, two one-sample
validation batches, a forward pass returning two class scores per sample,
an optimizer step that increments the weight, and a criterion summing the
first class score of each sample. -/

def wTensor (q : ℚ) : Tensor := ⟨[[q]], "cpu"⟩

def wBatch (q : ℚ) (lab : ℤ) : RawBatch :=
  [.tensor (wTensor q), .labels ⟨[lab], "cpu"⟩]

def cfgW : Cfg ℤ Unit := {
  forwardF := fun p i _ => i.rows.map (fun r => [r.headD 0 + p, 0])
  stepF := fun p o _ _ _ => (p + 1, o)
  crossEntropyLoss := fun outs _ => (outs.map (fun r => r.headD 0)).sum
  dataloaders := fun ph =>
    if ph = "train" then some [wBatch 1 0]
    else if ph = "val" then some [wBatch 1 0, wBatch 2 1] else none
  dataset_sizes := fun ph =>
    if ph = "train" then some 1 else if ph = "val" then some 2 else none
  num_epochs := 1
  patience := 2
  use_gpu := true
  device := "cuda" }

def sInit : TrainState ℤ Unit := initState cfgW 0 true ()

def accW : PhaseAcc := ⟨0, [], []⟩

def valOut : TrainState ℤ Unit × PhaseStats :=
  (phaseEval cfgW "val" sInit).toOption.getD (sInit, ⟨0, 0, 0, 0, 0⟩)

def sValW : TrainState ℤ Unit :=
  (runPhase cfgW "val" 0 sInit).toOption.getD sInit

def sFinW : TrainState ℤ Unit :=
  (train_model cfgW 0 true ()).toOption.getD sInit

def cfgW0 : Cfg ℤ Unit := { cfgW with num_epochs := 0 }

def cfgNT : Cfg ℤ Unit :=
  { cfgW with dataloaders := fun ph =>
      if ph = "val" then some [wBatch 1 0] else none }

def cfgP0 : Cfg ℤ Unit := { cfgW with patience := 0 }

def sFinP0 : TrainState ℤ Unit :=
  (train_model cfgP0 0 true ()).toOption.getD sInit

def ubsW : List UBatch :=
  (unpackAll cfgW.use_features [wBatch 1 0, wBatch 2 1]).toOption.getD []

def bResW : TrainState ℤ Unit × PhaseAcc :=
  (batchStep cfgW "val" sInit accW (wBatch 1 0)).toOption.getD (sInit, accW)

/-- Witness for C1: the first validation phase of the concrete run improves
(any finite loss beats the initial infinity), so the checkpoint updates. -/
theorem claim_C1_witness :
    phaseEval cfgW "val" sInit = .ok (valOut.1, valOut.2) ∧
    (((valOut.2.epoch_loss : WithTop ℚ) < sInit.best_metrics.val_loss ∨
       sInit.best_metrics.val_recall < valOut.2.epoch_recall) ∧
     runPhase cfgW "val" 0 sInit = .ok
      { valOut.1 with
        best_metrics :=
          { epoch := 1, val_loss := (valOut.2.epoch_loss : WithTop ℚ),
            val_accuracy := valOut.2.epoch_accuracy,
            val_precision := valOut.2.epoch_precision,
            val_recall := valOut.2.epoch_recall, val_f1 := valOut.2.epoch_f1 },
        best_model_wts := valOut.1.params,
        files := valOut.1.files ++ [(cfgW.output_filename, valOut.1.params)],
        patience_left := cfgW.patience }) :=
  ⟨rfl, Or.inl (WithTop.coe_lt_top _),
   (claim_C1 cfgW 0 sInit valOut.1 valOut.2 rfl).1
     (Or.inl (WithTop.coe_lt_top _))⟩

/-- Witness for C2 at the concrete run's first validation phase. -/
theorem claim_C2_witness :
    phaseEval cfgW "val" sInit = .ok (valOut.1, valOut.2) ∧
    runPhase cfgW "val" 0 sInit = .ok sValW ∧
    sValW.patience_left =
      (if (valOut.2.epoch_loss : WithTop ℚ) < sInit.best_metrics.val_loss ∨
          sInit.best_metrics.val_recall < valOut.2.epoch_recall
       then cfgW.patience else sInit.patience_left - 1) :=
  ⟨rfl, rfl,
   (claim_C2 cfgW 0 true ()).2.1 0 sInit valOut.1 valOut.2 rfl sValW rfl⟩

/-- Witness for C3 on the concrete run. -/
theorem claim_C3_witness :
    train_model cfgW 0 true () = .ok sFinW ∧
    sFinW.params = sFinW.best_model_wts :=
  ⟨rfl, (claim_C3 cfgW 0 true () sFinW rfl).1⟩

/-- Witness for C4 on the concrete run's validation phase, whose two
batches have sizes 1 and 1 against a phase sample count of 2. -/
theorem claim_C4_witness :
    cfgW.dataloaders "val" = some [wBatch 1 0, wBatch 2 1] ∧
    cfgW.dataset_sizes "val" = some 2 ∧
    unpackAll cfgW.use_features [wBatch 1 0, wBatch 2 1] = .ok ubsW ∧
    phaseEval cfgW "val" sInit = .ok (valOut.1, valOut.2) ∧
    valOut.2.epoch_loss = lossSumSpec cfgW "val" sInit.params sInit.opt ubsW / 2 :=
  ⟨rfl, rfl, rfl, rfl,
   claim_C4 cfgW "val" sInit valOut.1 valOut.2 [wBatch 1 0, wBatch 2 1] ubsW 2
     rfl rfl rfl rfl⟩

/-- Witness for C5: the zero-epoch configuration. -/
theorem claim_C5_witness :
    cfgW0.num_epochs = 0 ∧
    (∃ s', train_model cfgW0 0 true () = .ok s' ∧
      s'.params = 0 ∧ s'.batches_seen = 0 ∧ s'.opt_steps = 0 ∧
      s'.files = [] ∧ s'.epochs_done = 0) :=
  ⟨rfl, claim_C5 cfgW0 0 true () rfl⟩

/-- Witness for C6: a dataloaders mapping lacking the "train" key makes the
whole call fail with `KeyError`. -/
theorem claim_C6_witness :
    1 ≤ cfgNT.num_epochs ∧ cfgNT.dataloaders "train" = none ∧
    train_model cfgNT 0 true () = .error (.keyError "train") :=
  ⟨by decide, rfl, (claim_C6 cfgNT 0 true () (by decide)).1 rfl⟩

/-- Witness for C7: class 1 occurs in the truth but never in the
predictions, and all three of its per-class scores are zero. -/
theorem claim_C7_witness :
    (1 : ℤ) ∈ classesOf [0, 0, 1] [0, 0, 0] ∧
    ((1 : ℤ) ∉ ([0, 0, 1] : List ℤ) ∨ (1 : ℤ) ∉ ([0, 0, 0] : List ℤ)) ∧
    (precisionOf [0, 0, 1] [0, 0, 0] 1 = 0 ∧
     recallOf [0, 0, 1] [0, 0, 0] 1 = 0 ∧
     f1Of [0, 0, 1] [0, 0, 0] 1 = 0) :=
  ⟨by decide, by decide,
   (claim_C7 [0, 0, 1] [0, 0, 0] 1 (by decide) (by decide)).2⟩

/-- Witness for C8 on the concrete run's validation phase. -/
theorem claim_C8_witness :
    runPhase cfgW "val" 0 sInit = .ok sValW ∧ sValW.params = sInit.params :=
  ⟨rfl, (claim_C8 cfgW 0 sInit sValW rfl).1⟩

/-- Witness for C9 on one concrete batch with `use_gpu = true` and target
device "cuda". -/
theorem claim_C9_witness :
    cfgW.use_gpu = true ∧
    unpackBatch cfgW.use_features (wBatch 1 0) =
      .ok (wTensor 1, ⟨[0], "cpu"⟩, none) ∧
    batchStep cfgW "val" sInit accW (wBatch 1 0) = .ok (bResW.1, bResW.2) ∧
    bResW.1.forward_args = sInit.forward_args ++
      [(wTensor 1, none, LabelTensor.to ⟨[0], "cpu"⟩ cfgW.device)] :=
  ⟨rfl, rfl, rfl,
   (claim_C9 cfgW rfl "val" sInit bResW.1 accW bResW.2 (wBatch 1 0)
     (wTensor 1) ⟨[0], "cpu"⟩ none rfl rfl).1⟩

/-- Witness for C10: patience 0 stops the loop after exactly one epoch. -/
theorem claim_C10_witness :
    cfgP0.patience ≤ 0 ∧ 1 ≤ cfgP0.num_epochs ∧
    train_model cfgP0 0 true () = .ok sFinP0 ∧
    (sFinP0.epochs_done = 1 ∧ sFinP0.sched_steps = 0) :=
  ⟨by decide, by decide, rfl,
   claim_C10 cfgP0 0 true () sFinP0 (by decide) (by decide) rfl⟩

end TrainScript
